import Mathlib

/-!
Verification of the qybot gateway client and plugin registry.

The definitions below are a shallow embedding of the JavaScript source
(the logger-based bot in `src/unnamed/part_002`): the `QQBot` connection
state machine (`handleMessage`, `handleOpen`, `safeResetConnection`,
`sendSession`) and the `PluginManager` registry (`loadPlugins`,
`extractPlugins`, `processMessage`, `cleanup`, debounced watching).
Stateful JavaScript methods become explicit state-passing functions;
asynchronous effects become event traces; JavaScript truthiness on
numeric fields is modelled with 0 standing for an absent or zero field.
-/

namespace QYBot

/-! ## Gateway session state (class QQBot) -/

/-- Connection-related state of the `QQBot` class: `heartbeat_interval`,
`session_id`, `seq`, `restoreLink`, `accessToken` (constructor lines of the
source; timers and the raw socket handle are not tracked). -/
structure BotState where
  heartbeat_interval : Nat
  session_id : Option String
  seq : Nat
  restoreLink : Bool
  accessToken : String
  deriving Repr, DecidableEq

/-- State set up by the `QQBot` constructor: all numeric fields 0,
no session id, `restoreLink = false`, no token yet (modelled as `""`). -/
def initialBotState : BotState :=
  { heartbeat_interval := 0
    session_id := none
    seq := 0
    restoreLink := false
    accessToken := "" }

/-- An inbound gateway frame, with exactly the fields `handleMessage`
reads: `op`, `s`, `t`, `d.content`, `d.heartbeat_interval`,
`d.session_id`.  A numeric field equal to 0 is falsy in the source
(`if (ev.s)`), so 0 doubles as the absent marker, faithfully to the
JavaScript truthiness test. -/
structure InboundFrame where
  op : Nat
  s : Nat
  t : Option String
  content : Option String
  heartbeat_interval : Nat
  session_id : Option String
  deriving Repr, DecidableEq

/-- A frame that carries only a sequence number, the shape used by the
sequence-number claims. -/
def seqFrame (n : Nat) : InboundFrame :=
  { op := 0, s := n, t := none, content := none
    heartbeat_interval := 0, session_id := none }

/-- State update performed by `QQBot.handleMessage` on one inbound frame:
store `heartbeat_interval` when truthy, assign `seq` from `ev.s` when
truthy, capture `session_id` on the READY event.  The business-message
forwarding, the heartbeat send and the op 7/9 reset are side effects that
do not touch these fields. -/
def handleMessage (st : BotState) (ev : InboundFrame) : BotState :=
  let st1 := if ev.heartbeat_interval ≠ 0 then
    { st with heartbeat_interval := ev.heartbeat_interval } else st
  let st2 := if ev.s ≠ 0 then { st1 with seq := ev.s } else st1
  if ev.t = some "READY" then { st2 with session_id := ev.session_id } else st2

/-- Processing a whole inbound sequence of frames in arrival order. -/
def processInbound (st : BotState) (frames : List InboundFrame) : BotState :=
  frames.foldl handleMessage st

/-- The maximum sequence number carried by any frame of the list,
starting from the constructor value 0. -/
def maxSeqSeen (frames : List InboundFrame) : Nat :=
  frames.foldl (fun m ev => max m ev.s) 0

/-! ## Socket-open: resume versus identify (handleOpen, sendSession) -/

/-- A control frame sent by the client on the socket. -/
inductive SentFrame where
  | resume (token : String) (session_id : Option String) (seq : Nat)
  | identify (token : String) (intents : Nat) (shard : List Nat)
  | heartbeat (d : Option Nat)
  deriving Repr, DecidableEq

/-- The identify frame built by `QQBot.sendSession`:
`{op: 2, d: {token, intents: 0 | 1 << 25, shard: [0, 1]}}`. -/
def sendSession (token : String) : SentFrame :=
  .identify token (0 ||| (1 <<< 25)) [0, 1]

/-- `QQBot.handleOpen`: when `restoreLink` is set, send the resume frame
`{op: 6, d: {token, session_id, seq: seq + 1}}` and clear `restoreLink`;
otherwise send the identify frame via `sendSession`. -/
def handleOpen (st : BotState) : SentFrame × BotState :=
  if st.restoreLink then
    (.resume ("QQBot " ++ st.accessToken) st.session_id (st.seq + 1),
      { st with restoreLink := false })
  else
    (sendSession ("QQBot " ++ st.accessToken), st)

/-- `QQBot.cleanupResources` clears timers and drops the socket; it leaves
every tracked field of the connection state unchanged. -/
def cleanupResources (st : BotState) : BotState := st

/-- The deferred body of `QQBot.safeResetConnection`: after
`cleanupResources` the timeout callback sets `restoreLink = true` and
re-runs `init`.  The returned number is the backoff delay in ms. -/
def safeResetConnection (st : BotState) (delay : Nat := 0) : Nat × BotState :=
  (delay, { cleanupResources st with restoreLink := true })

/-- `QQBot.handleClose`: reset with a 3000 ms backoff. -/
def handleClose (st : BotState) : Nat × BotState :=
  safeResetConnection st 3000

/-- `QQBot.handleError`: reset with a 5000 ms backoff. -/
def handleError (st : BotState) : Nat × BotState :=
  safeResetConnection st 5000

/-- `QQBot.anewGetAccessToken` stores the freshly acquired token (the
reconnect path runs it before the socket reopens). -/
def refreshToken (st : BotState) (token : String) : BotState :=
  { st with accessToken := token }

/-! ## Plugin registry (class PluginManager)

A plugin object is identified by a token `pid : Nat` standing for the
JavaScript object identity.  The Map `this.plugins` is modelled as an
association list in insertion order, with `mapSet` giving the
JavaScript-Map semantics of `set` (replace the value of an existing key
in place, else append) and `mapGet` the semantics of `get`. -/

/-- JavaScript-Map `set`: replace in place when the key exists, append
otherwise. -/
def mapSet (m : List (String × Nat)) (k : String) (v : Nat) :
    List (String × Nat) :=
  match m with
  | [] => [(k, v)]
  | (k0, v0) :: rest =>
    if k0 = k then (k, v) :: rest else (k0, v0) :: mapSet rest k v

/-- JavaScript-Map `get`: the value of the first (unique) binding. -/
def mapGet (m : List (String × Nat)) (k : String) : Option Nat :=
  match m with
  | [] => none
  | (k0, v0) :: rest => if k0 = k then some v0 else mapGet rest k

/-- One generation of the registry: the Map `this.plugins` plus the
separate `this.defaultPlugin` slot. -/
structure Registry where
  plugins : List (String × Nat)
  defaultPlugin : Option Nat
  deriving Repr, DecidableEq

/-- Registry right after `this.plugins.clear(); this.defaultPlugin = null`. -/
def emptyRegistry : Registry := ⟨[], none⟩

/-- A plugin that passed validation during `loadPlugins`: its object
identity, the `manifest.processingTypes` list, and whether it exposes an
optional `init` function. -/
structure PluginSpec where
  pid : Nat
  processingTypes : List String
  hasInit : Bool
  deriving Repr, DecidableEq

/-- Body of the registration loop of `loadPlugins`
(`manifest.processingTypes.forEach`): the literal type string `default`
goes to the default slot, every other type into the Map. -/
def registerStep (pid : Nat) (r : Registry) (ty : String) : Registry :=
  if ty = "default" then { r with defaultPlugin := some pid }
  else { r with plugins := mapSet r.plugins ty pid }

/-- Registration of one plugin under each of its declared types, in
manifest order. -/
def registerTypes (reg : Registry) (p : PluginSpec) : Registry :=
  p.processingTypes.foldl (registerStep p.pid) reg

/-- The registry built by registering a list of plugins into a cleared
registry, in load order. -/
def buildRegistry (ps : List PluginSpec) : Registry :=
  ps.foldl registerTypes emptyRegistry

/-- The object identities whose optional cleanup hook
`PluginManager.cleanup` invokes, in order: every Map entry in insertion
order (one call per entry), then the default plugin.  `hasCleanup pid`
models the typeof-function test on the cleanup field. -/
def cleanupCalls (reg : Registry) (hasCleanup : Nat → Bool) : List Nat :=
  ((reg.plugins.map Prod.snd).filter hasCleanup)
    ++ (match reg.defaultPlugin with
        | some p => if hasCleanup p then [p] else []
        | none => [])

/-- An await point inside `loadPlugins` at which a dispatch can
interleave: the `extractPlugins` await, one await per old-generation
cleanup hook, one await per new-plugin `init` hook. -/
inductive LoadEvent where
  | extractAwait
  | cleanupHook (pid : Nat)
  | initHook (pid : Nat)
  deriving Repr, DecidableEq

/-- The plugin loop of `loadPlugins`: registration of one plugin is
synchronous, then its `init` (when present) is awaited — so the Map
visible while that await is pending holds exactly the plugins registered
so far.  Returns the await-point trace and the final registry. -/
def loadInitSteps (reg : Registry) :
    List PluginSpec → List (LoadEvent × Registry) × Registry
  | [] => ([], reg)
  | p :: ps =>
    let reg1 := registerTypes reg p
    let tail := loadInitSteps reg1 ps
    (if p.hasInit then (LoadEvent.initHook p.pid, reg1) :: tail.1 else tail.1,
      tail.2)

/-- The identities of the plugins whose `init` hook runs during a load,
in load order. -/
def initLog (ps : List PluginSpec) : List Nat :=
  (ps.filter (fun p => p.hasInit)).map (fun p => p.pid)

/-- The body of `loadPlugins` once the `isLoading` guard is passed, as a
trace of await points paired with the registry observable there: during
`extractPlugins` and during each old-generation cleanup await the live
registry is still the old one (the clear happens only after
`await this.cleanup()` returns); afterwards the Map is cleared and then
rebuilt in place, one plugin at a time. -/
def loadSteps (old : Registry) (hasCleanup : Nat → Bool)
    (ps : List PluginSpec) : List (LoadEvent × Registry) × Registry :=
  let cleanups := (cleanupCalls old hasCleanup).map
    (fun pid => (LoadEvent.cleanupHook pid, old))
  let inits := loadInitSteps emptyRegistry ps
  ((LoadEvent.extractAwait, old) :: cleanups ++ inits.1, inits.2)

/-! ## Archive staging (extractPlugins) -/

/-- One entry of a zip archive, as adm-zip reports it. -/
structure ZipEntry where
  isDirectory : Bool
  entryName : String
  deriving Repr, DecidableEq

/-- A zip file sitting in the plugin root: its file name, its entries,
and a token standing for the payload a successful extraction writes. -/
structure ZipFile where
  name : String
  entries : List ZipEntry
  content : Nat
  deriving Repr, DecidableEq

/-- Insertion into a JavaScript Set: keep order, drop duplicates. -/
def insertUnique (l : List String) (x : String) : List String :=
  if x ∈ l then l else l ++ [x]

/-- First segment of a slash-separated path when the path has more than
one segment (`entryName.split('/')` with `parts.length > 1` picks
`parts[0]`), `none` for a single-segment path. -/
def topSegment (name : String) : Option String :=
  if name.data.contains '/' then
    some ⟨name.data.takeWhile (fun c => c ≠ '/')⟩
  else none

/-- The top-level directory scan of `extractPlugins`: for every
non-directory entry whose path has more than one segment, collect the
first segment into a Set. -/
def topLevelDirs (entries : List ZipEntry) : List String :=
  entries.foldl
    (fun acc e =>
      if e.isDirectory then acc
      else
        match topSegment e.entryName with
        | some seg => insertUnique acc seg
        | none => acc)
    []

/-- The plugin root as `extractPlugins` touches it: the existing plugin
directories (name mapped to a token standing for their current content)
and the zip files present. -/
structure PluginFS where
  dirs : List (String × Nat)
  zips : List ZipFile
  deriving Repr, DecidableEq

/-- Renaming a directory aside: every binding of the old name is carried
over to the new name with its content untouched. -/
def renameDir (dirs : List (String × Nat)) (src dst : String) :
    List (String × Nat) :=
  dirs.map (fun e => if e.1 = src then (dst, e.2) else e)

/-- Processing of one zip file inside `extractPlugins`: reject (and leave
everything untouched) unless the entries have exactly one top-level
directory; otherwise rename an existing directory of that name aside with
the timestamp suffix, extract the archive (the target directory now holds
the zip payload), and delete the consumed zip file. -/
def processZip (fs : PluginFS) (now : Nat) (z : ZipFile) : PluginFS :=
  let tops := topLevelDirs z.entries
  if tops.length = 1 then
    let d := tops.headD ""
    let dirs1 := if (mapGet fs.dirs d).isSome then
        renameDir fs.dirs d (d ++ "_" ++ toString now) else fs.dirs
    { dirs := mapSet dirs1 d z.content
      zips := fs.zips.filter (fun w => w.name ≠ z.name) }
  else fs

/-- The zip loop of `extractPlugins`: the list of zips present at scan
time is processed in order. -/
def extractAll (fs : PluginFS) (now : Nat) : PluginFS :=
  fs.zips.foldl (fun f z => processZip f now z) fs

/-! ## Full load with the re-entrancy guard (loadPlugins) -/

/-- The mutable fields of `PluginManager` that `loadPlugins` touches:
the live registry, the `isLoading` flag and the plugin root. -/
structure PMState where
  registry : Registry
  isLoading : Bool
  fs : PluginFS
  deriving Repr, DecidableEq

/-- `PluginManager.loadPlugins`: when `isLoading` is set the request is
dropped and nothing happens; otherwise extract staged archives, run the
load body (old-generation cleanup, clear, re-register, init hooks) and
clear the flag at the end.  `discover` stands for the manifest scan that
turns the post-extraction plugin root into the validated plugin list. -/
def loadPlugins (st : PMState) (now : Nat) (hasCleanup : Nat → Bool)
    (discover : PluginFS → List PluginSpec) :
    List (LoadEvent × Registry) × PMState :=
  if st.isLoading then ([], st)
  else
    let fs1 := extractAll st.fs now
    let res := loadSteps st.registry hasCleanup (discover fs1)
    (res.1, { registry := res.2, isLoading := false, fs := fs1 })

/-! ## Dispatch (processMessage, processMessages) -/

/-- A JavaScript value a plugin main can resolve to, as the dispatch
distinguishes them: `null` (the no-handler sentinel), a string reply, or
an object reply with optional `text` and `image` fields. -/
inductive JSVal where
  | vnull
  | vstr (s : String)
  | vobj (text : Option String) (image : Option String)
  deriving Repr, DecidableEq

/-- The arguments `plugin.main` receives. -/
structure MsgArgs where
  msgType : String
  msgContent : String
  senderOpenid : String
  isPrivate : Bool
  deriving Repr, DecidableEq

/-- Outcome of awaiting one `plugin.main` call: a resolved value, or a
synchronous throw / asynchronous rejection. -/
inductive MainOutcome where
  | ok (v : JSVal)
  | threw
  deriving Repr, DecidableEq

/-- `PluginManager.processMessage`: look the type up in the Map; when
found, await that main (a throw is caught and the literal failure string
is returned); otherwise, when a default plugin exists, await it (a throw
is caught and logged, after which control falls through to `return null`);
otherwise return `null`.  The result records the returned value, the one
main invocation that happened (plugin identity and the exact arguments),
and the registry after the call — the method never writes the registry
fields. -/
def processMessage (reg : Registry) (behavior : Nat → MsgArgs → MainOutcome)
    (a : MsgArgs) : JSVal × Option (Nat × MsgArgs) × Registry :=
  match mapGet reg.plugins a.msgType with
  | some p =>
    match behavior p a with
    | .ok v => (v, some (p, a), reg)
    | .threw => (.vstr "插件处理出错", some (p, a), reg)
  | none =>
    match reg.defaultPlugin with
    | some d =>
      match behavior d a with
      | .ok v => (v, some (d, a), reg)
      | .threw => (.vnull, some (d, a), reg)
    | none => (.vnull, none, reg)

/-- Whitespace stripping at both ends, as `String.prototype.trim` does. -/
def trimChars (l : List Char) : List Char :=
  ((l.dropWhile Char.isWhitespace).reverse.dropWhile Char.isWhitespace).reverse

/-- The parse step of `QQBot.processMessages`: strip the leading
whitespace run; the source regex fails when nothing remains; otherwise
the type is the maximal non-whitespace head of the rest and the body is
everything after it, trimmed (`match[2].trim()`). -/
def parseMsg (msg : String) : Option (String × String) :=
  match msg.data.dropWhile Char.isWhitespace with
  | [] => none
  | c :: rest =>
    some (⟨(c :: rest).takeWhile (fun ch => !ch.isWhitespace)⟩,
      ⟨trimChars ((c :: rest).dropWhile (fun ch => !ch.isWhitespace))⟩)

/-- `QQBot.processMessages` up to the dispatch: privacy is the absence of
a group id, an unparseable message is dropped without any dispatch, and a
parsed message is handed to `processMessage` with the parsed pair passed
through untouched. -/
def processMessages (reg : Registry) (behavior : Nat → MsgArgs → MainOutcome)
    (msg : String) (groupId : Option String) (senderOpenid : String) :
    Option (JSVal × Option (Nat × MsgArgs) × Registry) :=
  match parseMsg msg with
  | none => none
  | some (t, b) =>
    some (processMessage reg behavior ⟨t, b, senderOpenid, groupId.isNone⟩)

/-! ## Debounced directory watching (startWatching) -/

/-- One filesystem-change notification as the watch callback sees it:
the reported file name, whether the path exists on disk at check time,
and whether it is a directory. -/
structure WatchEvent where
  filename : String
  onDisk : Bool
  isDir : Bool
  deriving Repr, DecidableEq

/-- Suffix test, as `String.prototype.endsWith` behaves. -/
def strEndsWith (s suffix : String) : Bool :=
  suffix.data.isSuffixOf s.data

/-- Relevance test of the watch callback: the path exists
(`fs.existsSync`) and is a directory or a zip file name. -/
def isRelevant (e : WatchEvent) : Bool :=
  e.onDisk && (e.isDir || strEndsWith e.filename ".zip")

/-- Relevance as the specification words it: a directory, or a file name
ending in the archive extension — with no existence requirement.
Modelled from the spec for comparison with `isRelevant`. -/
def specRelevant (e : WatchEvent) : Bool :=
  e.isDir || strEndsWith e.filename ".zip"

/-- The debounce delay of `startWatching`, in ms (`setTimeout(..., 1000)`). -/
def reloadDebounceWindow : Nat := 1000

/-- One watch notification at time `t` against the debounce state
`(count, pending)`: a pending timer whose deadline has passed fired
already (one reload); a relevant notification then clears any pending
timer and arms a fresh one due at `t + w`; an irrelevant one touches
nothing. -/
def debounceStep (w : Nat) (acc : Nat × Option Nat) (te : Nat × WatchEvent) :
    Nat × Option Nat :=
  let fired : Nat × Option Nat :=
    match acc.2 with
    | some dl => if dl ≤ te.1 then (acc.1 + 1, none) else acc
    | none => acc
  if isRelevant te.2 then (fired.1, some (te.1 + w)) else fired

/-- Number of reloads a time-ordered notification list triggers: fold the
debounce over the events, then count the final pending timer (it fires
once the window elapses with no further event). -/
def reloadCount (w : Nat) (events : List (Nat × WatchEvent)) : Nat :=
  let acc := events.foldl (debounceStep w) (0, none)
  acc.1 + (if acc.2.isSome then 1 else 0)

end QYBot

namespace QYBot

/-! ## Helper lemmas -/

/-- Projection of one `handleMessage` step on the stored sequence number:
`ev.s` overwrites `seq` exactly when it is truthy. -/
theorem handleMessage_seq (st : BotState) (ev : InboundFrame) :
    (handleMessage st ev).seq = if ev.s ≠ 0 then ev.s else st.seq := by
  unfold handleMessage
  by_cases h1 : ev.heartbeat_interval ≠ 0 <;> by_cases h2 : ev.s ≠ 0 <;>
    by_cases h3 : ev.t = some "READY" <;> simp [h1, h2, h3]

/-- Reading a Map after a `set`. -/
theorem mapGet_mapSet (m : List (String × Nat)) (k k' : String) (v : Nat) :
    mapGet (mapSet m k v) k' = if k = k' then some v else mapGet m k' := by
  induction m with
  | nil => simp [mapSet, mapGet]
  | cons e rest ih =>
    obtain ⟨k0, v0⟩ := e
    by_cases h0 : k0 = k
    · subst h0
      by_cases h : k0 = k' <;> simp [mapSet, mapGet, h]
    · by_cases h : k0 = k'
      · subst h
        have hk : ¬ k = k0 := fun hh => h0 hh.symm
        simp [mapSet, mapGet, h0, hk]
      · simp [mapSet, mapGet, h0, h, ih]

/-- A `set` binding is always present afterwards. -/
theorem mem_mapSet_self (m : List (String × Nat)) (k : String) (v : Nat) :
    (k, v) ∈ mapSet m k v := by
  induction m with
  | nil => simp [mapSet]
  | cons e rest ih =>
    by_cases h : e.1 = k <;> simp [mapSet, h, ih]

/-- A binding under a different key survives a `set`. -/
theorem mem_mapSet_of_ne (m : List (String × Nat)) (k : String) (v : Nat)
    (e : String × Nat) (he : e ∈ m) (hne : e.1 ≠ k) :
    e ∈ mapSet m k v := by
  induction m with
  | nil => cases he
  | cons e0 rest ih =>
    by_cases h : e0.1 = k
    · rcases List.mem_cons.mp he with rfl | hmem
      · exact absurd h hne
      · simp [mapSet, h, hmem]
    · rcases List.mem_cons.mp he with rfl | hmem
      · simp [mapSet, h]
      · simp [mapSet, h, ih hmem]

/-- A present binding makes `get` succeed. -/
theorem mapGet_isSome_of_mem (m : List (String × Nat)) (k : String) (v : Nat)
    (h : (k, v) ∈ m) : (mapGet m k).isSome = true := by
  induction m with
  | nil => cases h
  | cons e rest ih =>
    rcases List.mem_cons.mp h with rfl | hmem
    · simp [mapGet]
    · by_cases he : e.1 = k <;> simp [mapGet, he, ih hmem]

/-- Renaming carries a binding of the old name to the new name with its
content untouched. -/
theorem mem_renameDir (dirs : List (String × Nat)) (src dst : String)
    (c : Nat) (h : (src, c) ∈ dirs) : (dst, c) ∈ renameDir dirs src dst := by
  have := List.mem_map_of_mem (fun e : String × Nat =>
    if e.1 = src then (dst, e.2) else e) h
  simpa [renameDir] using this

/-- Appending a nonempty string changes a string. -/
theorem strAppend_ne (d s : String) (hs : s.data ≠ []) : d ++ s ≠ d := by
  intro he
  have hdata : d.data ++ s.data = d.data := by
    have := congrArg String.data he
    simpa [String.data_append] using this
  have : s.data = [] := by
    have h2 : d.data ++ s.data = d.data ++ [] := by simpa using hdata
    exact List.append_cancel_left h2
  exact hs this

/-- The timestamp suffix is nonempty. -/
theorem timestampSuffix_ne (now : Nat) : ("_" ++ toString now).data ≠ [] := by
  have : ("_" ++ toString now).data = '_' :: (toString now).data := by
    rw [String.data_append]; rfl
  simp [this]

/-- Default slot after the registration loop of one plugin: set to the
plugin exactly when the literal type `default` occurs among the processed
types. -/
theorem registerStep_fold_default (pid : Nat) (l : List String)
    (reg : Registry) :
    (l.foldl (registerStep pid) reg).defaultPlugin
      = if "default" ∈ l then some pid else reg.defaultPlugin := by
  induction l generalizing reg with
  | nil => simp
  | cons ty rest ih =>
    by_cases hty : ty = "default"
    · subst hty
      simp [registerStep, ih]
    · have hmm : ("default" ∈ ty :: rest) = ("default" ∈ rest) := by
        simp [eq_comm, hty]
      simp only [List.foldl_cons, ih, hmm]
      by_cases hmem : "default" ∈ rest <;> simp [hmem, registerStep, hty]

/-- The Map after the registration loop of one plugin answers a processed
non-default type with that plugin, and keeps an existing answer of that
plugin otherwise. -/
theorem registerStep_fold_get (pid : Nat) (l : List String) (reg : Registry)
    (ty : String) (hne : ty ≠ "default")
    (h : ty ∈ l ∨ mapGet reg.plugins ty = some pid) :
    mapGet ((l.foldl (registerStep pid) reg).plugins) ty = some pid := by
  induction l generalizing reg with
  | nil =>
    rcases h with hmem | hget
    · cases hmem
    · exact hget
  | cons t0 rest ih =>
    rw [List.foldl_cons]
    apply ih
    rcases h with hmem | hget
    · rcases List.mem_cons.mp hmem with rfl | hmem2
      · right
        simp [registerStep, hne, mapGet_mapSet]
      · left; exact hmem2
    · right
      by_cases h0 : t0 = "default"
      · simpa [registerStep, h0] using hget
      · simp only [registerStep, h0, if_false, mapGet_mapSet]
        by_cases he : t0 = ty <;> simp [he, hget]

/-- The registration loop never writes the key `default` into the Map. -/
theorem registerStep_fold_get_default (pid : Nat) (l : List String)
    (reg : Registry) :
    mapGet ((l.foldl (registerStep pid) reg).plugins) "default"
      = mapGet reg.plugins "default" := by
  induction l generalizing reg with
  | nil => rfl
  | cons t0 rest ih =>
    rw [List.foldl_cons, ih]
    by_cases h0 : t0 = "default"
    · simp [registerStep, h0]
    · simp [registerStep, h0, mapGet_mapSet]

/-- Registering any list of plugins never writes the key `default` into
the Map. -/
theorem foldl_registerTypes_get_default (ps : List PluginSpec)
    (reg : Registry) :
    mapGet ((ps.foldl registerTypes reg).plugins) "default"
      = mapGet reg.plugins "default" := by
  induction ps generalizing reg with
  | nil => rfl
  | cons p rest ih =>
    rw [List.foldl_cons, ih, registerTypes, registerStep_fold_get_default]

/-- The final registry of the plugin loop is the fold of registrations. -/
theorem loadInitSteps_fin (ps : List PluginSpec) (reg : Registry) :
    (loadInitSteps reg ps).2 = ps.foldl registerTypes reg := by
  induction ps generalizing reg with
  | nil => rfl
  | cons p rest ih => simp [loadInitSteps, ih]

/-- The await events of the plugin loop are exactly the init hooks of the
plugins that expose one, in load order. -/
theorem loadInitSteps_events (ps : List PluginSpec) (reg : Registry) :
    (loadInitSteps reg ps).1.map Prod.fst
      = (initLog ps).map LoadEvent.initHook := by
  induction ps generalizing reg with
  | nil => rfl
  | cons p rest ih =>
    by_cases hp : p.hasInit <;>
      simp [loadInitSteps, initLog, List.filter_cons, hp, ih]

/-- Every registry observable at an await point of the plugin loop is the
one built from a prefix of the plugin list. -/
theorem loadInitSteps_snap (ps : List PluginSpec) (reg : Registry)
    (e : LoadEvent × Registry) (he : e ∈ (loadInitSteps reg ps).1) :
    ∃ k, e.2 = (ps.take k).foldl registerTypes reg := by
  induction ps generalizing reg with
  | nil => cases he
  | cons p rest ih =>
    simp only [loadInitSteps] at he
    by_cases hp : p.hasInit
    · rw [if_pos hp] at he
      rcases List.mem_cons.mp he with rfl | hmem
      · exact ⟨1, rfl⟩
      · obtain ⟨k, hk⟩ := ih (registerTypes reg p) hmem
        exact ⟨k + 1, by simpa using hk⟩
    · rw [if_neg hp] at he
      obtain ⟨k, hk⟩ := ih (registerTypes reg p) he
      exact ⟨k + 1, by simpa using hk⟩

/-- Counting one identity among the per-entry cleanup calls of the Map. -/
theorem count_filter_snd (l : List (String × Nat)) (hc : Nat → Bool)
    (p : Nat) (h : hc p = true) :
    ((l.map Prod.snd).filter hc).count p
      = (l.filter (fun e => e.2 = p)).length := by
  induction l with
  | nil => rfl
  | cons e rest ih =>
    by_cases hp : e.2 = p
    · simp [List.filter_cons, hp, h, List.count_cons, ih]
    · by_cases hce : hc e.2
      · simp [List.filter_cons, hp, hce, List.count_cons, ih]
      · simp [List.filter_cons, hp, hce, ih]

/-- While a burst stays inside the armed window, every notification only
re-arms the timer: no reload fires during the burst and a timer stays
pending at the end. -/
theorem debounce_no_fire (w t0 : Nat) (l : List (Nat × WatchEvent)) :
    ∀ (tprev c : Nat),
      (∀ e ∈ l, isRelevant e.2 = true) →
      (∀ e ∈ l, t0 ≤ e.1) →
      (∀ e ∈ l, e.1 < t0 + w) →
      t0 ≤ tprev →
      (l.foldl (debounceStep w) (c, some (tprev + w))).1 = c
      ∧ (l.foldl (debounceStep w) (c, some (tprev + w))).2.isSome = true := by
  induction l with
  | nil => intro tprev c _ _ _ _; exact ⟨rfl, rfl⟩
  | cons e rest ih =>
    intro tprev c hrel hlb hub htp
    have hlt : e.1 < tprev + w := by
      have h1 := hub e (List.mem_cons_self e rest)
      omega
    have hstep : debounceStep w (c, some (tprev + w)) e
        = (c, some (e.1 + w)) := by
      have hr := hrel e (List.mem_cons_self e rest)
      simp [debounceStep, hr, Nat.not_le.mpr hlt]
    rw [List.foldl_cons, hstep]
    exact ih e.1 c
      (fun x hx => hrel x (List.mem_cons_of_mem e hx))
      (fun x hx => hlb x (List.mem_cons_of_mem e hx))
      (fun x hx => hub x (List.mem_cons_of_mem e hx))
      (hlb e (List.mem_cons_self e rest))

end QYBot

namespace QYBot

/-- C1: the claim that after processing any arrival-ordered sequence of
inbound frames the stored `seq` equals the maximum sequence number seen so
far is false: `handleMessage` assigns `seq` from every truthy `ev.s`
without comparing, so the frame list carrying sequence numbers 5 then 3
leaves `seq = 3` while the maximum seen is 5. -/
theorem C1_counterexample :
    ¬ (∀ frames : List InboundFrame,
        (processInbound initialBotState frames).seq = maxSeqSeen frames) := by
  intro h
  exact absurd (h [seqFrame 5, seqFrame 3]) (by decide)

/-- C1 (amended): after processing a sequence of inbound frames in arrival
order, the stored `seq` equals the sequence number carried by the last
frame whose sequence field is truthy (nonzero), or the prior value when no
frame carries one; it is last-write-wins, not a running maximum, and can
decrease when a later frame carries a smaller number. -/
theorem C1_amended (st : BotState) (frames : List InboundFrame) :
    (processInbound st frames).seq =
      ((frames.map InboundFrame.s).filter (fun n => n ≠ 0)).getLastD st.seq := by
  induction frames generalizing st with
  | nil => rfl
  | cons f fs ih =>
    show (processInbound (handleMessage st f) fs).seq = _
    rw [ih (handleMessage st f), handleMessage_seq st f]
    by_cases hf : f.s = 0
    · simp [hf]
    · have hfil : (f.s :: List.map InboundFrame.s fs).filter (fun n => n ≠ 0)
          = f.s :: (List.map InboundFrame.s fs).filter (fun n => n ≠ 0) := by
        simp [List.filter_cons, hf]
      rw [List.map_cons, hfil, List.getLastD_cons]
      simp [hf]

/-- C2: on socket-open after a close-triggered or error-triggered reset
(which sets `restoreLink`), the frame sent is the resume frame `{op: 6}`
carrying the last `session_id` and `seq + 1` under the freshly acquired
token; on a first connection (constructor state, `restoreLink = false`)
the frame sent is the identify frame `{op: 2}` carrying the credential,
the intents mask `0 | 1 << 25` and the shard pair `[0, 1]`. -/
theorem C2_resume_or_identify (st : BotState) (tok : String) :
    ((handleOpen (refreshToken (handleClose st).2 tok)).1
      = SentFrame.resume ("QQBot " ++ tok) st.session_id (st.seq + 1))
    ∧ ((handleOpen (refreshToken (handleError st).2 tok)).1
      = SentFrame.resume ("QQBot " ++ tok) st.session_id (st.seq + 1))
    ∧ ((handleOpen (refreshToken initialBotState tok)).1
      = SentFrame.identify ("QQBot " ++ tok) 33554432 [0, 1]) :=
  ⟨rfl, rfl, rfl⟩

/-- C3: the claim that during a registry reload the old generation is torn
down only after the new generation is fully constructed, and that a
dispatch observes either the complete old or the complete new mapping, is
false: in the concrete run below the cleanup hook of the old plugin runs
as the second await point — before any new registration — and the registry
observable while the first new plugin awaits its init holds only that one
plugin, which is neither the old generation nor the final one. -/
theorem C3_counterexample :
    ((loadSteps ⟨[("x", 0)], none⟩ (fun _ => true)
        [⟨1, ["a"], true⟩, ⟨2, ["b"], true⟩]).1.map Prod.fst
      = [LoadEvent.extractAwait, LoadEvent.cleanupHook 0,
         LoadEvent.initHook 1, LoadEvent.initHook 2])
    ∧ ¬ (∀ e ∈ (loadSteps ⟨[("x", 0)], none⟩ (fun _ => true)
          [⟨1, ["a"], true⟩, ⟨2, ["b"], true⟩]).1,
        e.2 = ⟨[("x", 0)], none⟩
        ∨ e.2 = (loadSteps ⟨[("x", 0)], none⟩ (fun _ => true)
            [⟨1, ["a"], true⟩, ⟨2, ["b"], true⟩]).2) := by
  decide

/-- C3 (amended): during a registry reload the old generation cleanup
hooks all run before any registration of the new generation (the await
trace is the extract point, then exactly the old-generation cleanup
hooks, then exactly the init hooks of the new plugins, in that order);
the mapping is rebuilt in place, so a dispatch interleaved at an await
point observes either the complete old mapping (while extracting or
cleaning up) or the new generation built from a prefix of the plugin
list; the registry left at the end is the fully built new generation. -/
theorem C3_amended (old : Registry) (hc : Nat → Bool) (ps : List PluginSpec) :
    ((loadSteps old hc ps).1.map Prod.fst
      = LoadEvent.extractAwait
          :: ((cleanupCalls old hc).map LoadEvent.cleanupHook
            ++ (initLog ps).map LoadEvent.initHook))
    ∧ (∀ e ∈ (loadSteps old hc ps).1,
        e.2 = old ∨ ∃ k, e.2 = buildRegistry (ps.take k))
    ∧ (loadSteps old hc ps).2 = buildRegistry ps := by
  refine ⟨?_, ?_, ?_⟩
  · simp [loadSteps, List.map_map, loadInitSteps_events, Function.comp]
  · intro e he
    simp only [loadSteps, List.mem_cons, List.mem_append] at he
    rcases he with (rfl | he) | he
    · left; rfl
    · left
      rcases List.mem_map.mp he with ⟨pid, _, rfl⟩
      rfl
    · right
      obtain ⟨k, hk⟩ := loadInitSteps_snap ps emptyRegistry e he
      exact ⟨k, hk⟩
  · simp [loadSteps, loadInitSteps_fin, buildRegistry]

/-- C3 amended, evaluated: the registry observed while the first new
plugin awaits its init is the one built from the one-plugin prefix. -/
theorem C3_amended_witness :
    (⟨[("a", 1)], none⟩ : Registry) = ⟨[("x", 0)], none⟩
    ∨ ∃ k, (⟨[("a", 1)], none⟩ : Registry)
        = buildRegistry ([⟨1, ["a"], true⟩, ⟨2, ["b"], true⟩].take k) :=
  (C3_amended ⟨[("x", 0)], none⟩ (fun _ => true)
    [⟨1, ["a"], true⟩, ⟨2, ["b"], true⟩]).2.1
    (LoadEvent.initHook 1, ⟨[("a", 1)], none⟩) (by decide)

/-- C4: the claim that a dispatch whose invoked main throws always returns
the generic failure reply is false for the default plugin: below the
default plugin is invoked and throws, the exception is caught, but the
dispatch falls through to `return null` and yields the no-handler
sentinel, not the generic failure string. -/
theorem C4_counterexample :
    (processMessage ⟨[], some 7⟩ (fun _ _ => MainOutcome.threw)
        ⟨"ping", "x", "u", false⟩).2.1
      = some (7, ⟨"ping", "x", "u", false⟩)
    ∧ (processMessage ⟨[], some 7⟩ (fun _ _ => MainOutcome.threw)
        ⟨"ping", "x", "u", false⟩).1 = JSVal.vnull
    ∧ JSVal.vnull ≠ JSVal.vstr "插件处理出错" := by
  decide

/-- C4 (amended): a dispatch whose command-type-matched plugin main throws
catches the exception and returns the generic failure reply, the registry
unchanged; a dispatch whose default plugin main throws catches the
exception but returns the no-handler sentinel (null), the registry again
unchanged — so subsequent dispatches behave as before in both cases. -/
theorem C4_amended (reg : Registry) (behavior : Nat → MsgArgs → MainOutcome)
    (a : MsgArgs) (p : Nat) :
    (mapGet reg.plugins a.msgType = some p → behavior p a = .threw →
      processMessage reg behavior a
        = (JSVal.vstr "插件处理出错", some (p, a), reg))
    ∧ (mapGet reg.plugins a.msgType = none → reg.defaultPlugin = some p →
        behavior p a = .threw →
        processMessage reg behavior a = (JSVal.vnull, some (p, a), reg)) := by
  constructor
  · intro hm hb
    simp [processMessage, hm, hb]
  · intro hm hd hb
    simp [processMessage, hm, hd, hb]

/-- C4 amended, evaluated: a matched plugin that throws produces the
generic failure string, and a default plugin that throws produces null. -/
theorem C4_amended_witness :
    processMessage ⟨[("ping", 3)], none⟩ (fun _ _ => MainOutcome.threw)
        ⟨"ping", "x", "u", false⟩
      = (JSVal.vstr "插件处理出错", some (3, ⟨"ping", "x", "u", false⟩),
          ⟨[("ping", 3)], none⟩)
    ∧ processMessage ⟨[], some 7⟩ (fun _ _ => MainOutcome.threw)
        ⟨"ping", "x", "u", true⟩
      = (JSVal.vnull, some (7, ⟨"ping", "x", "u", true⟩), ⟨[], some 7⟩) :=
  ⟨(C4_amended ⟨[("ping", 3)], none⟩ (fun _ _ => MainOutcome.threw)
      ⟨"ping", "x", "u", false⟩ 3).1 (by decide) rfl,
    (C4_amended ⟨[], some 7⟩ (fun _ _ => MainOutcome.threw)
      ⟨"ping", "x", "u", true⟩ 7).2 (by decide) rfl rfl⟩

/-- C5: when two plugins loaded in one generation both declare the same
non-default command type, the later-loaded plugin answers that type; the
init hooks of both plugins still appear in the load trace; declaring the
literal type `default` sets the separate default slot; and no load ever
puts the key `default` into the type map. -/
theorem C5_override_and_init (old : Registry) (hc : Nat → Bool)
    (p1 p2 : PluginSpec) (ty : String)
    (hne : ty ≠ "default")
    (_h1 : ty ∈ p1.processingTypes) (h2 : ty ∈ p2.processingTypes)
    (hi1 : p1.hasInit = true) (hi2 : p2.hasInit = true) :
    mapGet (loadSteps old hc [p1, p2]).2.plugins ty = some p2.pid
    ∧ LoadEvent.initHook p1.pid ∈ (loadSteps old hc [p1, p2]).1.map Prod.fst
    ∧ LoadEvent.initHook p2.pid ∈ (loadSteps old hc [p1, p2]).1.map Prod.fst
    ∧ (∀ (reg : Registry) (p : PluginSpec), "default" ∈ p.processingTypes →
        (registerTypes reg p).defaultPlugin = some p.pid)
    ∧ (∀ qs : List PluginSpec,
        mapGet (loadSteps old hc qs).2.plugins "default" = none) := by
  refine ⟨?_, ?_, ?_, ?_, ?_⟩
  · have hfin : (loadSteps old hc [p1, p2]).2
        = registerTypes (registerTypes emptyRegistry p1) p2 := by
      simp [loadSteps, loadInitSteps_fin]
    rw [hfin, registerTypes]
    exact registerStep_fold_get p2.pid _ _ ty hne (Or.inl h2)
  · simp [loadSteps, List.map_map, loadInitSteps_events, initLog,
      List.filter_cons, hi1, hi2, Function.comp]
  · simp [loadSteps, List.map_map, loadInitSteps_events, initLog,
      List.filter_cons, hi1, hi2, Function.comp]
  · intro reg p hmem
    rw [registerTypes, registerStep_fold_default]
    simp [hmem]
  · intro qs
    have hfin : (loadSteps old hc qs).2
        = qs.foldl registerTypes emptyRegistry := by
      simp [loadSteps, loadInitSteps_fin]
    rw [hfin, foldl_registerTypes_get_default]
    rfl

/-- C5, evaluated on two plugins both declaring `chat`: the second one
answers `chat` and both init hooks appear in the trace. -/
theorem C5_witness :
    mapGet (loadSteps emptyRegistry (fun _ => false)
        [⟨1, ["chat"], true⟩, ⟨2, ["chat"], true⟩]).2.plugins "chat" = some 2
    ∧ LoadEvent.initHook 1 ∈ (loadSteps emptyRegistry (fun _ => false)
        [⟨1, ["chat"], true⟩, ⟨2, ["chat"], true⟩]).1.map Prod.fst
    ∧ LoadEvent.initHook 2 ∈ (loadSteps emptyRegistry (fun _ => false)
        [⟨1, ["chat"], true⟩, ⟨2, ["chat"], true⟩]).1.map Prod.fst := by
  have h := C5_override_and_init emptyRegistry (fun _ => false)
    ⟨1, ["chat"], true⟩ ⟨2, ["chat"], true⟩ "chat"
    (by decide) (by decide) (by decide) rfl rfl
  exact ⟨h.1, h.2.1, h.2.2.1⟩

/-- C6: the claim that every notification for a directory or a
zip-named file is relevant is false: the watch callback first requires
the path to exist on disk (`fs.existsSync`), so a single notification for
a zip file that is no longer on disk — relevant under the wording of the
claim — triggers zero reloads, not one. -/
theorem C6_counterexample :
    specRelevant ⟨"p.zip", false, false⟩ = true
    ∧ reloadCount reloadDebounceWindow [(0, ⟨"p.zip", false, false⟩)] = 0 := by
  decide

/-- C6 (amended): a notification is relevant only when the path still
exists on disk and is a directory or a zip file name; the debounce window
is 1000 ms, at least the demanded 500 ms; and every burst of N ≥ 1
relevant notifications arriving within one window of the first triggers
exactly one reload, fired after the window elapses. -/
theorem C6_amended (t0 : Nat) (e0 : WatchEvent)
    (rest : List (Nat × WatchEvent))
    (hrel0 : isRelevant e0 = true)
    (hrel : ∀ e ∈ rest, isRelevant e.2 = true)
    (hlb : ∀ e ∈ rest, t0 ≤ e.1)
    (hub : ∀ e ∈ rest, e.1 < t0 + reloadDebounceWindow) :
    500 ≤ reloadDebounceWindow
    ∧ reloadCount reloadDebounceWindow ((t0, e0) :: rest) = 1 := by
  refine ⟨by decide, ?_⟩
  unfold reloadCount
  rw [List.foldl_cons]
  have hstep : debounceStep reloadDebounceWindow (0, none) (t0, e0)
      = (0, some (t0 + reloadDebounceWindow)) := by
    simp [debounceStep, hrel0]
  rw [hstep]
  obtain ⟨h1, h2⟩ := debounce_no_fire reloadDebounceWindow t0 rest t0 0
    hrel hlb hub le_rfl
  simp [h1, h2]

/-- C6 amended, evaluated: ten relevant notifications inside 500 ms of
each other trigger exactly one reload. -/
theorem C6_amended_witness :
    500 ≤ reloadDebounceWindow
    ∧ reloadCount reloadDebounceWindow
        ((0, ⟨"a.zip", true, false⟩) ::
          [(50, ⟨"a.zip", true, false⟩), (100, ⟨"b", true, true⟩),
           (150, ⟨"a.zip", true, false⟩), (200, ⟨"a.zip", true, false⟩),
           (250, ⟨"c.zip", true, false⟩), (300, ⟨"a.zip", true, false⟩),
           (350, ⟨"a.zip", true, false⟩), (400, ⟨"d", true, true⟩),
           (450, ⟨"a.zip", true, false⟩)]) = 1 :=
  C6_amended 0 ⟨"a.zip", true, false⟩ _
    (by decide) (by decide) (by decide) (by decide)

/-- C7: an archive whose file entries span a number of top-level
directories different from one is rejected with the plugin root left
completely untouched; an archive with exactly one top-level directory
that matches an existing plugin directory has that directory renamed
aside under the timestamp suffix with its content intact (never deleted),
the archive payload extracted under the original name, and the consumed
zip file deleted. -/
theorem C7_archive_staging (fs : PluginFS) (now : Nat) (z : ZipFile) :
    ((topLevelDirs z.entries).length ≠ 1 → processZip fs now z = fs)
    ∧ (∀ d c, topLevelDirs z.entries = [d] → (d, c) ∈ fs.dirs →
        (d ++ "_" ++ toString now, c) ∈ (processZip fs now z).dirs
        ∧ (d, z.content) ∈ (processZip fs now z).dirs
        ∧ (processZip fs now z).zips
            = fs.zips.filter (fun w => w.name ≠ z.name)) := by
  constructor
  · intro h
    simp [processZip, h]
  · intro d c htops hmem
    have hlen : (topLevelDirs z.entries).length = 1 := by rw [htops]; rfl
    have hd : (topLevelDirs z.entries).headD "" = d := by rw [htops]; rfl
    have hsome : (mapGet fs.dirs d).isSome = true :=
      mapGet_isSome_of_mem fs.dirs d c hmem
    have hne : d ++ "_" ++ toString now ≠ d := by
      have hassoc : d ++ "_" ++ toString now = d ++ ("_" ++ toString now) :=
        String.append_assoc d "_" (toString now)
      rw [hassoc]
      exact strAppend_ne d _ (timestampSuffix_ne now)
    have heq : processZip fs now z =
        { dirs := mapSet (renameDir fs.dirs d (d ++ "_" ++ toString now))
            d z.content
          zips := fs.zips.filter (fun w => w.name ≠ z.name) } := by
      simp [processZip, htops, hsome]
    rw [heq]
    refine ⟨?_, ?_, rfl⟩
    · exact mem_mapSet_of_ne _ d z.content _
        (mem_renameDir fs.dirs d (d ++ "_" ++ toString now) c hmem) hne
    · exact mem_mapSet_self _ d z.content

/-- C7, evaluated: a two-top-level-directory archive leaves the plugin
root untouched; a one-top-level-directory archive over an existing
directory of the same name backs the directory up, extracts, and deletes
the zip. -/
theorem C7_witness :
    processZip ⟨[], [⟨"q.zip", [⟨false, "a/x"⟩, ⟨false, "b/y"⟩], 5⟩]⟩ 3
        ⟨"q.zip", [⟨false, "a/x"⟩, ⟨false, "b/y"⟩], 5⟩
      = ⟨[], [⟨"q.zip", [⟨false, "a/x"⟩, ⟨false, "b/y"⟩], 5⟩]⟩
    ∧ ("p" ++ "_" ++ toString 7, 9)
        ∈ (processZip ⟨[("p", 9)], [⟨"p.zip", [⟨false, "p/main.js"⟩], 42⟩]⟩ 7
            ⟨"p.zip", [⟨false, "p/main.js"⟩], 42⟩).dirs
    ∧ ("p", 42)
        ∈ (processZip ⟨[("p", 9)], [⟨"p.zip", [⟨false, "p/main.js"⟩], 42⟩]⟩ 7
            ⟨"p.zip", [⟨false, "p/main.js"⟩], 42⟩).dirs :=
  ⟨(C7_archive_staging ⟨[], [⟨"q.zip", [⟨false, "a/x"⟩, ⟨false, "b/y"⟩], 5⟩]⟩
      3 ⟨"q.zip", [⟨false, "a/x"⟩, ⟨false, "b/y"⟩], 5⟩).1 (by decide),
    ((C7_archive_staging ⟨[("p", 9)], [⟨"p.zip", [⟨false, "p/main.js"⟩], 42⟩]⟩
      7 ⟨"p.zip", [⟨false, "p/main.js"⟩], 42⟩).2 "p" 9
      (by decide) (by decide)).1,
    ((C7_archive_staging ⟨[("p", 9)], [⟨"p.zip", [⟨false, "p/main.js"⟩], 42⟩]⟩
      7 ⟨"p.zip", [⟨false, "p/main.js"⟩], 42⟩).2 "p" 9
      (by decide) (by decide)).2.1⟩

/-- C8: a dispatch of a parsed message whose command type has no Map
entry but for which a default plugin is registered invokes the default
plugin with the untouched parsed `(commandType, commandBody)` pair — the
same arguments a matched handler receives: a registry that does match the
type hands the identical argument record to the matched plugin. -/
theorem C8_default_same_args (reg : Registry)
    (behavior : Nat → MsgArgs → MainOutcome) (msg : String)
    (groupId : Option String) (sender : String) (t b : String) (d : Nat)
    (hp : parseMsg msg = some (t, b))
    (hm : mapGet reg.plugins t = none)
    (hd : reg.defaultPlugin = some d) :
    processMessages reg behavior msg groupId sender
      = some (processMessage reg behavior ⟨t, b, sender, groupId.isNone⟩)
    ∧ (processMessage reg behavior ⟨t, b, sender, groupId.isNone⟩).2.1
        = some (d, ⟨t, b, sender, groupId.isNone⟩)
    ∧ (∀ (reg2 : Registry) (p : Nat), mapGet reg2.plugins t = some p →
        (processMessage reg2 behavior ⟨t, b, sender, groupId.isNone⟩).2.1
          = some (p, ⟨t, b, sender, groupId.isNone⟩)) := by
  refine ⟨?_, ?_, ?_⟩
  · simp [processMessages, hp]
  · cases hb : behavior d ⟨t, b, sender, groupId.isNone⟩ <;>
      simp [processMessage, hm, hd, hb]
  · intro reg2 p hm2
    cases hb : behavior p ⟨t, b, sender, groupId.isNone⟩ <;>
      simp [processMessage, hm2, hb]

/-- C8, evaluated: the message " ping hello" parses to ("ping", "hello"),
no "ping" handler exists, and the default plugin 7 is invoked with the
untouched parsed pair. -/
theorem C8_witness :
    processMessages ⟨[], some 7⟩ (fun _ _ => MainOutcome.ok JSVal.vnull)
        " ping hello" none "u"
      = some (processMessage ⟨[], some 7⟩
          (fun _ _ => MainOutcome.ok JSVal.vnull)
          ⟨"ping", "hello", "u", true⟩)
    ∧ (processMessage ⟨[], some 7⟩ (fun _ _ => MainOutcome.ok JSVal.vnull)
        ⟨"ping", "hello", "u", true⟩).2.1
      = some (7, ⟨"ping", "hello", "u", true⟩) := by
  have h := C8_default_same_args ⟨[], some 7⟩
    (fun _ _ => MainOutcome.ok JSVal.vnull) " ping hello" none "u"
    "ping" "hello" 7 (by decide) (by decide) rfl
  exact ⟨h.1, h.2.1⟩

/-- C9: a `loadPlugins` request arriving while a load is already in
progress (the `isLoading` flag set) is dropped: the call performs no
await point (no cleanup hook, no init hook), and the registry, the flag
and the plugin root are all left exactly as they were. -/
theorem C9_load_guard (st : PMState) (now : Nat) (hc : Nat → Bool)
    (discover : PluginFS → List PluginSpec) (h : st.isLoading = true) :
    loadPlugins st now hc discover = ([], st) := by
  simp [loadPlugins, h]

/-- C9, evaluated on a state with the flag set. -/
theorem C9_witness :
    loadPlugins ⟨⟨[("a", 1)], some 2⟩, true, ⟨[("p", 9)], []⟩⟩ 5
        (fun _ => true) (fun _ => [])
      = ([], ⟨⟨[("a", 1)], some 2⟩, true, ⟨[("p", 9)], []⟩⟩) :=
  C9_load_guard ⟨⟨[("a", 1)], some 2⟩, true, ⟨[("p", 9)], []⟩⟩ 5
    (fun _ => true) (fun _ => []) rfl

/-- C10: for a plugin whose cleanup hook is a function,
`PluginManager.cleanup` invokes the hook once per type-map entry holding
that plugin — N times for N distinct registered types, the Map keys being
unique — plus one more time when the same object also sits in the default
slot: multiplicity is per registration, not once per plugin. -/
theorem C10_cleanup_multiplicity (reg : Registry) (hcl : Nat → Bool)
    (p : Nat) (h : hcl p = true) :
    (cleanupCalls reg hcl).count p
      = (reg.plugins.filter (fun e => e.2 = p)).length
        + (if reg.defaultPlugin = some p then 1 else 0) := by
  unfold cleanupCalls
  rw [List.count_append, count_filter_snd reg.plugins hcl p h]
  congr 1
  cases hdp : reg.defaultPlugin with
  | none => simp
  | some q =>
    by_cases hq : q = p
    · subst hq
      simp [h, List.count_singleton]
    · by_cases hcq : hcl q <;> simp [hcq, hq, List.count_singleton]

/-- C10, evaluated: a plugin registered under two types and also default
has its hook invoked three times. -/
theorem C10_witness :
    (cleanupCalls ⟨[("a", 1), ("b", 1), ("c", 2)], some 1⟩
      (fun _ => true)).count 1 = 3 :=
  (C10_cleanup_multiplicity ⟨[("a", 1), ("b", 1), ("c", 2)], some 1⟩
    (fun _ => true) 1 rfl).trans (by decide)

end QYBot
